import Mathlib

/-!
Verification of the 2D bounding-volume geometry kernel used by the
`bounding_2d` example (`src/examples/math/bounding_2d.rs`).

The example file itself only dispatches on volume kinds and calls the
kernel (`Aabb2d`, `BoundingCircle`, `RayCast2d`, the cast types and their
queries); the kernel's code is not part of the repository snapshot, so the
kernel operations below are modelled from the specification's §3-§4, while
the dispatch logic (`CurrentVolume`, the cast systems' match arms) is
translated from the example source.  Scalars are modelled as real numbers;
floating-point rounding is outside the scope of this development.
-/

noncomputable section

namespace Bounding2d

/-- A 2D vector of scalars, as the kernel's `Vec2`. -/
structure Vec2 where
  x : ℝ
  y : ℝ

namespace Vec2

@[ext] theorem ext_xy {a b : Vec2} (hx : a.x = b.x) (hy : a.y = b.y) : a = b := by
  cases a; cases b; simp_all

def add (a b : Vec2) : Vec2 := ⟨a.x + b.x, a.y + b.y⟩

def sub (a b : Vec2) : Vec2 := ⟨a.x - b.x, a.y - b.y⟩

def dot (a b : Vec2) : ℝ := a.x * b.x + a.y * b.y

/-- Squared Euclidean length. -/
def length_sq (a : Vec2) : ℝ := a.x ^ 2 + a.y ^ 2

/-- Euclidean length. -/
def length (a : Vec2) : ℝ := Real.sqrt a.length_sq

end Vec2

/-- Modelled from the spec (§3): `Isometry2d` is a rigid placement,
`{ translation: Vector2, rotation: scalar (radians) }`. -/
structure Isometry2d where
  translation : Vec2
  rotation : ℝ

/-- Rotation of a point about the origin by an angle in radians. -/
def rotate (theta : ℝ) (p : Vec2) : Vec2 :=
  ⟨p.x * Real.cos theta - p.y * Real.sin theta,
   p.x * Real.sin theta + p.y * Real.cos theta⟩

/-- Modelled from the spec (§4.1): conversions "apply rotation before
translation". -/
def Isometry2d.apply (iso : Isometry2d) (p : Vec2) : Vec2 :=
  (rotate iso.rotation p).add iso.translation

/-- Modelled from the spec (§3): `Aabb2d` is `{ min: Vector2, max: Vector2 }`. -/
structure Aabb2d where
  min : Vec2
  max : Vec2

@[ext] theorem Aabb2d.ext_min_max {a b : Aabb2d} (hmin : a.min = b.min)
    (hmax : a.max = b.max) : a = b := by
  cases a; cases b; simp_all

/-- Modelled from the spec (§3): `BoundingCircle` is
`{ center: Vector2, radius: scalar }`. -/
structure BoundingCircle where
  center : Vec2
  radius : ℝ

/-- Modelled from the spec (§4.2): `new(center, half_size)`. -/
def Aabb2d.new (center half_size : Vec2) : Aabb2d :=
  ⟨center.sub half_size, center.add half_size⟩

/-- Modelled from the spec (§4.3): `new(center, radius)`. -/
def BoundingCircle.new (center : Vec2) (radius : ℝ) : BoundingCircle :=
  ⟨center, radius⟩

/-- Modelled from the spec (§3): derived attribute
`half_size = (max-min)/2`. -/
def Aabb2d.half_size (a : Aabb2d) : Vec2 :=
  ⟨(a.max.x - a.min.x) / 2, (a.max.y - a.min.y) / 2⟩

/-- Modelled from the spec (§4.2): `merge(a, b)` is the component-wise min
of mins and max of maxes. -/
def Aabb2d.merge (a b : Aabb2d) : Aabb2d :=
  ⟨⟨Min.min a.min.x b.min.x, Min.min a.min.y b.min.y⟩,
   ⟨Max.max a.max.x b.max.x, Max.max a.max.y b.max.y⟩⟩

/-- Modelled from the spec (§3, §8): an AABB contains another when the
other's extent lies inside it on both axes. -/
def Aabb2d.contains (a b : Aabb2d) : Prop :=
  a.min.x ≤ b.min.x ∧ a.min.y ≤ b.min.y ∧ b.max.x ≤ a.max.x ∧ b.max.y ≤ a.max.y

/-- Modelled from the spec (§3): the `Aabb2d` invariant
`min.x ≤ max.x and min.y ≤ max.y`. -/
def Aabb2d.wf (a : Aabb2d) : Prop :=
  a.min.x ≤ a.max.x ∧ a.min.y ≤ a.max.y

/-- A point lies in an AABB (closed on both axes). -/
def Aabb2d.contains_point (a : Aabb2d) (p : Vec2) : Prop :=
  a.min.x ≤ p.x ∧ p.x ≤ a.max.x ∧ a.min.y ≤ p.y ∧ p.y ≤ a.max.y

/-- Clamp a scalar to a closed interval. -/
def clamp (x lo hi : ℝ) : ℝ := max lo (min x hi)

/-- The point of an AABB nearest to a given point: the component-wise clamp
of the point to the box. -/
def Aabb2d.closest_point (a : Aabb2d) (p : Vec2) : Vec2 :=
  ⟨clamp p.x a.min.x a.max.x, clamp p.y a.min.y a.max.y⟩

/-- Modelled from the spec (§4.2): AABB-AABB intersection is true iff all
axis intervals overlap, closed intervals, touching counts. -/
def Aabb2d.intersects (a b : Aabb2d) : Prop :=
  a.min.x ≤ b.max.x ∧ b.min.x ≤ a.max.x ∧ a.min.y ≤ b.max.y ∧ b.min.y ≤ a.max.y

/-- Modelled from the spec (§4.2): AABB-circle intersection is true iff the
squared distance from the circle center to the nearest point on the AABB is
at most the squared radius. -/
def Aabb2d.intersects_circle (a : Aabb2d) (c : BoundingCircle) : Prop :=
  (c.center.sub (a.closest_point c.center)).length_sq ≤ c.radius ^ 2

/-- Modelled from the spec (§4.3): circle-circle intersection is true iff
the distance between centers is at most the sum of radii. -/
def BoundingCircle.intersects (c d : BoundingCircle) : Prop :=
  (c.center.sub d.center).length ≤ c.radius + d.radius

/-- Modelled from the spec (§4.3): circle-AABB "delegates to 4.2's
symmetric test". -/
def BoundingCircle.intersects_aabb (c : BoundingCircle) (a : Aabb2d) : Prop :=
  a.intersects_circle c

/-- Modelled from the spec (§3): `Ray2d` is origin plus direction; the
direction is kept unit length by its constructor. -/
structure Ray2d where
  origin : Vec2
  direction : Vec2

/-- Modelled from the spec (§3): `RayCast2d` bounds a ray to a finite
segment; the bound field is named `max` as in the source's `ray.max`. -/
structure RayCast2d where
  ray : Ray2d
  max : ℝ

/-- Modelled from the spec (§4.4): one axis of the slab method.  When the
direction component is zero the ray is parallel to the slab: reject if the
origin is outside the slab on that axis, else the axis is unconstrained
(entry 0 and exit `max_d`, neutral for the final clamp to `[0, max_d]`).
Otherwise the entry/exit parametric distances of the two slab planes. -/
def axis_slab (o d mn mx max_d : ℝ) : Option (ℝ × ℝ) :=
  if d = 0 then
    if mn ≤ o ∧ o ≤ mx then some (0, max_d) else none
  else
    some (min ((mn - o) / d) ((mx - o) / d), max ((mn - o) / d) ((mx - o) / d))

/-- Modelled from the spec (§4.4): slab-method ray/box intersection.  The
per-axis ranges are intersected, the entry is clamped below by 0 and the
exit above by `max_distance`; if entry ≤ exit the entry is returned (0 when
the origin is already inside: first-hit semantics), else none. -/
def RayCast2d.aabb_intersection_at (rc : RayCast2d) (b : Aabb2d) : Option ℝ :=
  match axis_slab rc.ray.origin.x rc.ray.direction.x b.min.x b.max.x rc.max,
        axis_slab rc.ray.origin.y rc.ray.direction.y b.min.y b.max.y rc.max with
  | some (lo1, hi1), some (lo2, hi2) =>
    let tmin := Max.max (Max.max lo1 lo2) 0
    let tmax := Min.min (Min.min hi1 hi2) rc.max
    if tmin ≤ tmax then some tmin else none
  | _, _ => none

/-- Modelled from the spec (§4.4): ray-circle intersection by solving
`|origin + t·dir - center|² = radius²`; with a unit direction this is
`t² + 2·b·t + c = 0` for `b = dir ⬝ (origin - center)` and
`c = |origin - center|² - radius²`.  Negative discriminant: none; origin
already inside the circle (`c ≤ 0`): report 0; otherwise the smaller
non-negative root, none when it exceeds `max_distance` or no root is
non-negative. -/
def RayCast2d.circle_intersection_at (rc : RayCast2d) (circ : BoundingCircle) :
    Option ℝ :=
  let oc := rc.ray.origin.sub circ.center
  let b := rc.ray.direction.dot oc
  let c := oc.length_sq - circ.radius ^ 2
  let disc := b ^ 2 - c
  if disc < 0 then none
  else if c ≤ 0 then some 0
  else
    let t1 := -b - Real.sqrt disc
    let t2 := -b + Real.sqrt disc
    if 0 ≤ t1 then (if rc.max < t1 then none else some t1)
    else if 0 ≤ t2 then (if rc.max < t2 then none else some t2)
    else none

/-- Modelled from the spec (§4.5): inflate an AABB by a half-size on all
sides. -/
def Aabb2d.grow (a : Aabb2d) (h : Vec2) : Aabb2d :=
  ⟨⟨a.min.x - h.x, a.min.y - h.y⟩, ⟨a.max.x + h.x, a.max.y + h.y⟩⟩

/-- Modelled from the spec (§3): `AabbCast2d` sweeps a fixed-shape AABB
along a bounded ray; field names follow the source (`aabb_cast.aabb`,
`aabb_cast.ray`). -/
structure AabbCast2d where
  aabb : Aabb2d
  ray : RayCast2d

/-- Modelled from the spec (§3): `BoundingCircleCast` sweeps a fixed circle
along a bounded ray. -/
structure BoundingCircleCast where
  circle : BoundingCircle
  ray : RayCast2d

/-- Modelled from the spec (§4.5): inflate the target by the moving AABB's
half-size, then ray-cast against the inflated AABB. -/
def AabbCast2d.aabb_collision_at (cast : AabbCast2d) (target : Aabb2d) :
    Option ℝ :=
  cast.ray.aabb_intersection_at (target.grow cast.aabb.half_size)

/-- Modelled from the spec (§4.5): inflate the target radius by the moving
circle's radius, then ray-cast (circle form) against the inflated circle. -/
def BoundingCircleCast.circle_collision_at (cast : BoundingCircleCast)
    (target : BoundingCircle) : Option ℝ :=
  cast.ray.circle_intersection_at ⟨target.center, target.radius + cast.circle.radius⟩

/-- The example's `CurrentVolume` component (`bounding_2d.rs`, lines
136-140): an entity's volume is either an AABB or a bounding circle. -/
inductive CurrentVolume where
  | Aabb (a : Aabb2d)
  | Circle (c : BoundingCircle)

/-- The intersection dispatch of `aabb_intersection_system` and
`circle_intersection_system` (`bounding_2d.rs`, lines 393-399 and 412-418),
generalised to a probe of either kind. -/
def CurrentVolume.intersects : CurrentVolume → CurrentVolume → Prop
  | .Aabb a, .Aabb b => a.intersects b
  | .Aabb a, .Circle c => a.intersects_circle c
  | .Circle c, .Aabb a => c.intersects_aabb a
  | .Circle c, .Circle d => c.intersects d

/-- The match of `aabb_cast_system` (`bounding_2d.rs`, lines 334-337): an
AABB volume is cast against, a circle volume yields `None` directly. -/
def aabb_cast_toi (cast : AabbCast2d) : CurrentVolume → Option ℝ
  | .Aabb a => cast.aabb_collision_at a
  | .Circle _ => none

/-- The match of `bounding_circle_cast_system` (`bounding_2d.rs`, lines
362-365): a circle volume is cast against, an AABB volume yields `None`. -/
def bounding_circle_cast_toi (cast : BoundingCircleCast) : CurrentVolume → Option ℝ
  | .Aabb _ => none
  | .Circle c => cast.circle_collision_at c

/-- Both cast systems set the `Intersects` flag to `toi.is_some()`
(`bounding_2d.rs`, lines 339 and 367). -/
def intersects_flag (toi : Option ℝ) : Bool := toi.isSome

/-- Modelled from the spec (§3): shape variant `Rectangle{half_extents}`;
`new(width, height)` stores the half extents. -/
structure Rectangle where
  half_size : Vec2

def Rectangle.new (width height : ℝ) : Rectangle := ⟨⟨width / 2, height / 2⟩⟩

/-- Modelled from the spec (§4.1): a rectangle's AABB under an isometry is
the axis-aligned bounds of the four rotated half-extent corners, rotation
applied before translation. -/
def Rectangle.aabb_2d (r : Rectangle) (iso : Isometry2d) : Aabb2d :=
  let c1 := iso.apply ⟨r.half_size.x, r.half_size.y⟩
  let c2 := iso.apply ⟨r.half_size.x, -r.half_size.y⟩
  let c3 := iso.apply ⟨-r.half_size.x, r.half_size.y⟩
  let c4 := iso.apply ⟨-r.half_size.x, -r.half_size.y⟩
  ⟨⟨min (min c1.x c2.x) (min c3.x c4.x), min (min c1.y c2.y) (min c3.y c4.y)⟩,
   ⟨max (max c1.x c2.x) (max c3.x c4.x), max (max c1.y c2.y) (max c3.y c4.y)⟩⟩

/-- Modelled from the spec (§7): the error condition for constructing a
direction from a zero-length vector. -/
inductive InvalidDirectionError where
  | Zero

/-- Modelled from the spec (§3, §7): the `Ray2d`/`Dir2` direction
constructor normalizes its input, and fails with `InvalidDirection` on a
zero-length vector. -/
def Dir2.new (v : Vec2) : Except InvalidDirectionError Vec2 :=
  if v.length_sq = 0 then .error .Zero
  else .ok ⟨v.x / v.length, v.y / v.length⟩

/-! ## Helper lemmas -/

theorem Vec2.length_sq_sub_comm (a b : Vec2) :
    (a.sub b).length_sq = (b.sub a).length_sq := by
  simp only [Vec2.sub, Vec2.length_sq]
  ring

theorem Vec2.length_sub_comm (a b : Vec2) :
    (a.sub b).length = (b.sub a).length := by
  simp only [Vec2.length, Vec2.length_sq_sub_comm]

theorem axis_slab_inside (o d mn mx m : ℝ) (h1 : mn ≤ o) (h2 : o ≤ mx)
    (hm : 0 ≤ m) :
    ∃ lo hi, axis_slab o d mn mx m = some (lo, hi) ∧ lo ≤ 0 ∧ 0 ≤ hi := by
  unfold axis_slab
  by_cases hd : d = 0
  · exact ⟨0, m, by simp [hd, h1, h2], le_refl 0, hm⟩
  · rw [if_neg hd]
    refine ⟨_, _, rfl, ?_, ?_⟩
    · rcases lt_or_gt_of_ne hd with hneg | hpos
      · exact le_trans (min_le_right _ _) (div_nonpos_of_nonneg_of_nonpos (by linarith) (le_of_lt hneg))
      · exact le_trans (min_le_left _ _) (div_nonpos_of_nonpos_of_nonneg (by linarith) (le_of_lt hpos))
    · rcases lt_or_gt_of_ne hd with hneg | hpos
      · exact le_trans (div_nonneg_of_nonpos (by linarith) (le_of_lt hneg)) (le_max_left _ _)
      · exact le_trans (div_nonneg (by linarith) (le_of_lt hpos)) (le_max_right _ _)

theorem axis_slab_mono (o d mn mx m1 m2 lo hi : ℝ) (hm : m1 ≤ m2)
    (h : axis_slab o d mn mx m1 = some (lo, hi)) :
    ∃ hi2, axis_slab o d mn mx m2 = some (lo, hi2) ∧ hi ≤ hi2 := by
  unfold axis_slab at h ⊢
  by_cases hd : d = 0
  · rw [if_pos hd] at h ⊢
    by_cases hin : mn ≤ o ∧ o ≤ mx
    · rw [if_pos hin] at h ⊢
      have h2 := Option.some.inj h
      rw [Prod.mk.injEq] at h2
      obtain ⟨rfl, rfl⟩ := h2
      exact ⟨m2, rfl, hm⟩
    · rw [if_neg hin] at h
      exact Option.noConfusion h
  · rw [if_neg hd] at h ⊢
    have h2 := Option.some.inj h
    rw [Prod.mk.injEq] at h2
    obtain ⟨rfl, rfl⟩ := h2
    exact ⟨_, rfl, le_refl _⟩

theorem quadratic_root_eval (B C S t : ℝ) (hS : S ^ 2 = B ^ 2 - C)
    (ht : t = -B - S ∨ t = -B + S) : t ^ 2 + 2 * B * t + C = 0 := by
  rcases ht with rfl | rfl <;> linear_combination hS

theorem point_at_root_on_circle (o d cen : Vec2) (r t : ℝ)
    (hd1 : d.length_sq = 1)
    (hroot : t ^ 2 + 2 * (d.dot (o.sub cen)) * t +
      ((o.sub cen).length_sq - r ^ 2) = 0) :
    ((o.add ⟨t * d.x, t * d.y⟩).sub cen).length_sq = r ^ 2 := by
  simp only [Vec2.add, Vec2.sub, Vec2.dot, Vec2.length_sq] at *
  linear_combination hroot + t ^ 2 * hd1

/-! ## Claim theorems -/

/-- Claim C10: in the AabbCast test mode a circle-volume entity gets its
`Intersects` flag set to false unconditionally, and in the CircleCast test
mode an AABB-volume entity likewise: the match arms yield `None` without
calling any cast. -/
theorem cross_kind_cast_no_hit :
    ∀ (ac : AabbCast2d) (cc : BoundingCircleCast) (c : BoundingCircle) (a : Aabb2d),
      aabb_cast_toi ac (CurrentVolume.Circle c) = none ∧
      intersects_flag (aabb_cast_toi ac (CurrentVolume.Circle c)) = false ∧
      bounding_circle_cast_toi cc (CurrentVolume.Aabb a) = none ∧
      intersects_flag (bounding_circle_cast_toi cc (CurrentVolume.Aabb a)) = false := by
  intro ac cc c a
  exact ⟨rfl, rfl, rfl, rfl⟩

/-- Claim C8: `Aabb2d.merge` is the component-wise min of mins and max of
maxes; it contains both arguments and is commutative and associative. -/
theorem merge_contains_comm_assoc :
    ∀ a b c : Aabb2d,
      a.merge b =
        ⟨⟨Min.min a.min.x b.min.x, Min.min a.min.y b.min.y⟩,
         ⟨Max.max a.max.x b.max.x, Max.max a.max.y b.max.y⟩⟩ ∧
      (a.merge b).contains a ∧ (a.merge b).contains b ∧
      a.merge b = b.merge a ∧ (a.merge b).merge c = a.merge (b.merge c) := by
  intro a b c
  refine ⟨rfl, ⟨?_, ?_, ?_, ?_⟩, ⟨?_, ?_, ?_, ?_⟩, ?_, ?_⟩
  · exact min_le_left _ _
  · exact min_le_left _ _
  · exact le_max_left _ _
  · exact le_max_left _ _
  · exact min_le_right _ _
  · exact min_le_right _ _
  · exact le_max_right _ _
  · exact le_max_right _ _
  · simp [Aabb2d.merge, min_comm, max_comm]
  · simp [Aabb2d.merge, min_assoc, max_assoc]

/-- Claim C2: the intersection predicate is symmetric across all four kind
pairings of AABBs and bounding circles. -/
theorem intersects_symm :
    ∀ u v : CurrentVolume, u.intersects v ↔ v.intersects u := by
  intro u v
  cases u <;> cases v
  · simp only [CurrentVolume.intersects, Aabb2d.intersects]
    tauto
  · simp only [CurrentVolume.intersects, BoundingCircle.intersects_aabb]
  · simp only [CurrentVolume.intersects, BoundingCircle.intersects_aabb]
  · simp only [CurrentVolume.intersects, BoundingCircle.intersects]
    rw [Vec2.length_sub_comm, add_comm]

/-- Claim C4: a Rectangle of width 80 and height 80 under the isometry with
translation (0, 75) and rotation 0 yields exactly
`Aabb2d {min = (-40, 35), max = (40, 115)}`. -/
theorem rectangle_aabb_roundtrip_example :
    (Rectangle.new 80 80).aabb_2d ⟨⟨0, 75⟩, 0⟩ = ⟨⟨-40, 35⟩, ⟨40, 115⟩⟩ := by
  simp only [Rectangle.new, Rectangle.aabb_2d, Isometry2d.apply, rotate, Vec2.add,
    Real.cos_zero, Real.sin_zero]
  norm_num [min_def, max_def]

/-- Claim C6: AABB-AABB intersection holds iff the closed x-intervals and
the closed y-intervals both overlap; in particular the boxes
{min = (-10, -10), max = (10, 10)} and {min = (5, 5), max = (20, 20)}
intersect. -/
theorem aabb_intersects_iff_closed_overlap :
    (∀ a b : Aabb2d, a.wf → b.wf →
      (a.intersects b ↔
        (Set.Icc a.min.x a.max.x ∩ Set.Icc b.min.x b.max.x).Nonempty ∧
        (Set.Icc a.min.y a.max.y ∩ Set.Icc b.min.y b.max.y).Nonempty)) ∧
    Aabb2d.intersects ⟨⟨-10, -10⟩, ⟨10, 10⟩⟩ ⟨⟨5, 5⟩, ⟨20, 20⟩⟩ := by
  constructor
  · intro a b ha hb
    rw [Set.Icc_inter_Icc, Set.nonempty_Icc, Set.Icc_inter_Icc, Set.nonempty_Icc]
    obtain ⟨hax, hay⟩ := ha
    obtain ⟨hbx, hby⟩ := hb
    simp only [Aabb2d.intersects, sup_le_iff, le_inf_iff]
    tauto
  · norm_num [Aabb2d.intersects]

/-- Witness for claim C6 at concrete boxes. -/
theorem aabb_intersects_iff_closed_overlap_witness :
    Aabb2d.intersects ⟨⟨-10, -10⟩, ⟨10, 10⟩⟩ ⟨⟨5, 5⟩, ⟨20, 20⟩⟩ ↔
      (Set.Icc (-10 : ℝ) 10 ∩ Set.Icc (5 : ℝ) 20).Nonempty ∧
      (Set.Icc (-10 : ℝ) 10 ∩ Set.Icc (5 : ℝ) 20).Nonempty :=
  aabb_intersects_iff_closed_overlap.1 ⟨⟨-10, -10⟩, ⟨10, 10⟩⟩ ⟨⟨5, 5⟩, ⟨20, 20⟩⟩
    (by constructor <;> norm_num) (by constructor <;> norm_num)

/-- Claim C1: when the ray origin already lies inside the target volume,
both `aabb_intersection_at` and `circle_intersection_at` return `Some 0`
(first-hit semantics). -/
theorem ray_origin_inside_returns_zero :
    ∀ (rc : RayCast2d) (b : Aabb2d) (circ : BoundingCircle),
      0 ≤ rc.max →
      (b.contains_point rc.ray.origin → rc.aabb_intersection_at b = some 0) ∧
      ((rc.ray.origin.sub circ.center).length_sq ≤ circ.radius ^ 2 →
        rc.circle_intersection_at circ = some 0) := by
  intro rc b circ hm
  constructor
  · intro hp
    obtain ⟨h1, h2, h3, h4⟩ := hp
    obtain ⟨lo1, hi1, e1, hlo1, hhi1⟩ :=
      axis_slab_inside rc.ray.origin.x rc.ray.direction.x b.min.x b.max.x rc.max h1 h2 hm
    obtain ⟨lo2, hi2, e2, hlo2, hhi2⟩ :=
      axis_slab_inside rc.ray.origin.y rc.ray.direction.y b.min.y b.max.y rc.max h3 h4 hm
    unfold RayCast2d.aabb_intersection_at
    rw [e1, e2]
    have hmin : Max.max (Max.max lo1 lo2) 0 = 0 := max_eq_right (max_le hlo1 hlo2)
    have hcond : Max.max (Max.max lo1 lo2) 0 ≤ Min.min (Min.min hi1 hi2) rc.max := by
      rw [hmin]
      exact le_min (le_min hhi1 hhi2) hm
    simp only [if_pos hcond, hmin]
    rw [if_pos (le_min (le_min hhi1 hhi2) hm)]
  · intro hin
    have hc : (rc.ray.origin.sub circ.center).length_sq - circ.radius ^ 2 ≤ 0 := by
      linarith
    have hdisc : ¬ (rc.ray.direction.dot (rc.ray.origin.sub circ.center) ^ 2 -
        ((rc.ray.origin.sub circ.center).length_sq - circ.radius ^ 2) < 0) := by
      push_neg
      have := sq_nonneg (rc.ray.direction.dot (rc.ray.origin.sub circ.center))
      linarith
    simp only [RayCast2d.circle_intersection_at]
    rw [if_neg hdisc, if_pos hc]

/-- Witness for claim C1: the ray from the origin along the x-axis starts
inside the unit-radius circle at the origin and inside the box
[-1, 1] × [-1, 1]; both queries report a hit at time 0. -/
theorem ray_origin_inside_returns_zero_witness :
    RayCast2d.aabb_intersection_at ⟨⟨⟨0, 0⟩, ⟨1, 0⟩⟩, 10⟩ ⟨⟨-1, -1⟩, ⟨1, 1⟩⟩ = some 0 ∧
    RayCast2d.circle_intersection_at ⟨⟨⟨0, 0⟩, ⟨1, 0⟩⟩, 10⟩ ⟨⟨0, 0⟩, 1⟩ = some 0 := by
  have h := ray_origin_inside_returns_zero ⟨⟨⟨0, 0⟩, ⟨1, 0⟩⟩, 10⟩ ⟨⟨-1, -1⟩, ⟨1, 1⟩⟩
    ⟨⟨0, 0⟩, 1⟩ (by norm_num)
  exact ⟨h.1 (by norm_num [Aabb2d.contains_point]),
         h.2 (by norm_num [Vec2.sub, Vec2.length_sq])⟩

/-- Claim C5: `circle_intersection_at` solves the ray-circle quadratic and
returns the smaller non-negative root when one exists within
`max_distance` (reporting 0 when the origin is already inside); for the
unit ray along the x-axis with `max_distance` 10 it misses the circle at
(0, 5) with radius 1 and hits the circle at (5, 0) with radius 1 at time 4. -/
theorem circle_intersection_at_spec :
    (∀ (o d : Vec2) (m : ℝ) (circ : BoundingCircle) (t : ℝ),
      d.length_sq = 1 →
      RayCast2d.circle_intersection_at ⟨⟨o, d⟩, m⟩ circ = some t →
      ((o.sub circ.center).length_sq ≤ circ.radius ^ 2 ∧ t = 0) ∨
      (0 ≤ t ∧ t ≤ m ∧
        ((o.add ⟨t * d.x, t * d.y⟩).sub circ.center).length_sq = circ.radius ^ 2)) ∧
    RayCast2d.circle_intersection_at ⟨⟨⟨0, 0⟩, ⟨1, 0⟩⟩, 10⟩ ⟨⟨0, 5⟩, 1⟩ = none ∧
    RayCast2d.circle_intersection_at ⟨⟨⟨0, 0⟩, ⟨1, 0⟩⟩, 10⟩ ⟨⟨5, 0⟩, 1⟩ = some 4 := by
  refine ⟨?_, ?_, ?_⟩
  · intro o d m circ t hd1 h
    simp only [RayCast2d.circle_intersection_at] at h
    split_ifs at h with hdisc hc hpos1 hm1 hpos2 hm2
    · obtain rfl := Option.some.inj h
      left
      exact ⟨by linarith, rfl⟩
    · obtain rfl := Option.some.inj h
      refine Or.inr ⟨hpos1, not_lt.mp hm1, ?_⟩
      exact point_at_root_on_circle o d circ.center circ.radius _ hd1
        (quadratic_root_eval _ _ _ _ (Real.sq_sqrt (not_lt.mp hdisc)) (Or.inl rfl))
    · obtain rfl := Option.some.inj h
      refine Or.inr ⟨hpos2, not_lt.mp hm2, ?_⟩
      exact point_at_root_on_circle o d circ.center circ.radius _ hd1
        (quadratic_root_eval _ _ _ _ (Real.sq_sqrt (not_lt.mp hdisc)) (Or.inr rfl))
  · norm_num [RayCast2d.circle_intersection_at, Vec2.sub, Vec2.dot, Vec2.length_sq]
  · norm_num [RayCast2d.circle_intersection_at, Vec2.sub, Vec2.dot, Vec2.length_sq,
      Real.sqrt_one]

/-- Witness for claim C5: the hit example, fed back through the general
clause, shows the returned time 4 is a non-negative root on the circle. -/
theorem circle_intersection_at_spec_witness :
    ((⟨0, 0⟩ : Vec2).sub ⟨5, 0⟩).length_sq ≤ (1 : ℝ) ^ 2 ∧ (4 : ℝ) = 0 ∨
      0 ≤ (4 : ℝ) ∧ (4 : ℝ) ≤ 10 ∧
        (((⟨0, 0⟩ : Vec2).add ⟨4 * 1, 4 * 0⟩).sub ⟨5, 0⟩).length_sq = (1 : ℝ) ^ 2 :=
  circle_intersection_at_spec.1 ⟨0, 0⟩ ⟨1, 0⟩ 10 ⟨⟨5, 0⟩, 1⟩ 4
    (by norm_num [Vec2.length_sq]) circle_intersection_at_spec.2.2

/-- Claim C3: `aabb_collision_at` inflates the stationary target by the
moving AABB's half-size and ray-casts against the inflated box; the moving
box of half-size (5, 5) on the ray from (-50, 0) along (1, 0) against the
target box [-2, 2]² sees the inflated box [-7, 7]² and hits at time 43 for
any sufficient `max_distance`. -/
theorem aabb_cast_inflate_example :
    (∀ (cast : AabbCast2d) (target : Aabb2d),
      cast.aabb_collision_at target =
        cast.ray.aabb_intersection_at (target.grow cast.aabb.half_size)) ∧
    Aabb2d.grow ⟨⟨-2, -2⟩, ⟨2, 2⟩⟩ ((Aabb2d.new ⟨0, 0⟩ ⟨5, 5⟩).half_size) =
      ⟨⟨-7, -7⟩, ⟨7, 7⟩⟩ ∧
    ∀ m : ℝ, 43 ≤ m →
      (AabbCast2d.mk (Aabb2d.new ⟨0, 0⟩ ⟨5, 5⟩)
          ⟨⟨⟨-50, 0⟩, ⟨1, 0⟩⟩, m⟩).aabb_collision_at ⟨⟨-2, -2⟩, ⟨2, 2⟩⟩ = some 43 := by
  have hbox : Aabb2d.grow ⟨⟨-2, -2⟩, ⟨2, 2⟩⟩ ((Aabb2d.new ⟨0, 0⟩ ⟨5, 5⟩).half_size) =
      ⟨⟨-7, -7⟩, ⟨7, 7⟩⟩ := by
    norm_num [Aabb2d.grow, Aabb2d.new, Aabb2d.half_size, Vec2.sub, Vec2.add]
  refine ⟨fun cast target => rfl, hbox, ?_⟩
  intro m hm
  show RayCast2d.aabb_intersection_at ⟨⟨⟨-50, 0⟩, ⟨1, 0⟩⟩, m⟩
    (Aabb2d.grow ⟨⟨-2, -2⟩, ⟨2, 2⟩⟩ ((Aabb2d.new ⟨0, 0⟩ ⟨5, 5⟩).half_size)) = some 43
  rw [hbox]
  have hx : axis_slab (-50 : ℝ) 1 (-7) 7 m = some (43, 57) := by
    unfold axis_slab
    rw [if_neg (by norm_num : ¬(1 : ℝ) = 0)]
    norm_num [min_def, max_def]
  have hy : axis_slab (0 : ℝ) 0 (-7) 7 m = some (0, m) := by
    unfold axis_slab
    rw [if_pos rfl, if_pos (by norm_num)]
  unfold RayCast2d.aabb_intersection_at
  dsimp only
  rw [hx, hy]
  have h43 : Max.max (Max.max (43 : ℝ) 0) 0 = 43 := by norm_num [max_def]
  dsimp only
  rw [h43, if_pos (le_min (le_min (by norm_num) hm) hm)]

/-- Witness for claim C3 at `max_distance` 100. -/
theorem aabb_cast_inflate_example_witness :
    (AabbCast2d.mk (Aabb2d.new ⟨0, 0⟩ ⟨5, 5⟩)
        ⟨⟨⟨-50, 0⟩, ⟨1, 0⟩⟩, 100⟩).aabb_collision_at ⟨⟨-2, -2⟩, ⟨2, 2⟩⟩ = some 43 :=
  aabb_cast_inflate_example.2.2 100 (by norm_num)

/-- Claim C7: enlarging `max_distance` never changes a returned time of
impact for either ray query; a `Some t` at bound `d1` stays `Some t` at any
bound `d2 ≥ d1`. -/
theorem toi_monotone_in_max_distance :
    ∀ (r : Ray2d) (d1 d2 : ℝ) (b : Aabb2d) (circ : BoundingCircle) (t : ℝ),
      d1 ≤ d2 →
      (RayCast2d.aabb_intersection_at ⟨r, d1⟩ b = some t →
        RayCast2d.aabb_intersection_at ⟨r, d2⟩ b = some t) ∧
      (RayCast2d.circle_intersection_at ⟨r, d1⟩ circ = some t →
        RayCast2d.circle_intersection_at ⟨r, d2⟩ circ = some t) := by
  intro r d1 d2 b circ t hd
  constructor
  · intro h
    unfold RayCast2d.aabb_intersection_at at h ⊢
    dsimp only at h ⊢
    rcases e1 : axis_slab r.origin.x r.direction.x b.min.x b.max.x d1 with _ | p1
    · rw [e1] at h
      exact Option.noConfusion h
    obtain ⟨lo1, hi1⟩ := p1
    rcases e2 : axis_slab r.origin.y r.direction.y b.min.y b.max.y d1 with _ | p2
    · rw [e1, e2] at h
      exact Option.noConfusion h
    obtain ⟨lo2, hi2⟩ := p2
    rw [e1, e2] at h
    obtain ⟨hi1b, e1b, hb1⟩ := axis_slab_mono _ _ _ _ _ _ _ _ hd e1
    obtain ⟨hi2b, e2b, hb2⟩ := axis_slab_mono _ _ _ _ _ _ _ _ hd e2
    rw [e1b, e2b]
    dsimp only at h ⊢
    split_ifs at h with hc
    obtain rfl := Option.some.inj h
    have hmono : Min.min (Min.min hi1 hi2) d1 ≤ Min.min (Min.min hi1b hi2b) d2 :=
      le_min
        (le_min (le_trans (le_trans (min_le_left _ _) (min_le_left _ _)) hb1)
          (le_trans (le_trans (min_le_left _ _) (min_le_right _ _)) hb2))
        (le_trans (min_le_right _ _) hd)
    rw [if_pos (le_trans hc hmono)]
  · intro h
    simp only [RayCast2d.circle_intersection_at] at h ⊢
    split_ifs at h ⊢ with h1 h2 h3 h4 h5 h6 h7 h8 <;>
      first
        | exact h
        | (exfalso; linarith)

/-- Witness for claim C7: the hit at time 4 with bound 10 persists
unchanged at bound 20 for both the box [4, 6] × [-1, 1] and the circle at
(5, 0) with radius 1. -/
theorem toi_monotone_in_max_distance_witness :
    RayCast2d.aabb_intersection_at ⟨⟨⟨0, 0⟩, ⟨1, 0⟩⟩, 20⟩ ⟨⟨4, -1⟩, ⟨6, 1⟩⟩ = some 4 ∧
    RayCast2d.circle_intersection_at ⟨⟨⟨0, 0⟩, ⟨1, 0⟩⟩, 20⟩ ⟨⟨5, 0⟩, 1⟩ = some 4 := by
  have h := toi_monotone_in_max_distance ⟨⟨0, 0⟩, ⟨1, 0⟩⟩ 10 20 ⟨⟨4, -1⟩, ⟨6, 1⟩⟩
    ⟨⟨5, 0⟩, 1⟩ 4 (by norm_num)
  refine ⟨h.1 ?_, h.2 ?_⟩
  · have hx : axis_slab (0 : ℝ) 1 4 6 10 = some (4, 6) := by
      unfold axis_slab
      rw [if_neg (by norm_num : ¬(1 : ℝ) = 0)]
      norm_num [min_def, max_def]
    have hy : axis_slab (0 : ℝ) 0 (-1) 1 10 = some (0, 10) := by
      unfold axis_slab
      rw [if_pos rfl, if_pos (by norm_num)]
    unfold RayCast2d.aabb_intersection_at
    dsimp only
    rw [hx, hy]
    dsimp only
    norm_num [min_def, max_def]
  · norm_num [RayCast2d.circle_intersection_at, Vec2.sub, Vec2.dot, Vec2.length_sq,
      Real.sqrt_one]

/-- Claim C9: constructing a ray direction from the zero vector fails with
the invalid-direction error, and for every non-zero vector it succeeds with
a unit-length direction. -/
theorem dir2_new_spec :
    Dir2.new ⟨0, 0⟩ = Except.error InvalidDirectionError.Zero ∧
    ∀ v : Vec2, v ≠ ⟨0, 0⟩ → ∃ u, Dir2.new v = Except.ok u ∧ u.length = 1 := by
  constructor
  · unfold Dir2.new
    rw [if_pos (show Vec2.length_sq ⟨0, 0⟩ = 0 by norm_num [Vec2.length_sq])]
  · intro v hv
    have hne : v.x ^ 2 + v.y ^ 2 ≠ 0 := by
      intro h0
      have hx : v.x ^ 2 = 0 :=
        le_antisymm (by nlinarith [sq_nonneg v.y]) (sq_nonneg v.x)
      have hy : v.y ^ 2 = 0 :=
        le_antisymm (by nlinarith [sq_nonneg v.x]) (sq_nonneg v.y)
      exact hv (Vec2.ext_xy ((pow_eq_zero_iff (two_ne_zero)).mp hx)
        ((pow_eq_zero_iff (two_ne_zero)).mp hy))
    have hls : v.length_sq ≠ 0 := hne
    refine ⟨⟨v.x / v.length, v.y / v.length⟩, ?_, ?_⟩
    · unfold Dir2.new
      rw [if_neg hls]
    · unfold Vec2.length Vec2.length_sq
      dsimp only
      rw [div_pow, div_pow, div_add_div_same,
        Real.sq_sqrt (by positivity : (0 : ℝ) ≤ v.x ^ 2 + v.y ^ 2),
        div_self hne, Real.sqrt_one]

/-- Witness for claim C9: the vector (3, 4) yields a unit direction. -/
theorem dir2_new_spec_witness :
    ∃ u, Dir2.new ⟨3, 4⟩ = Except.ok u ∧ u.length = 1 :=
  dir2_new_spec.2 ⟨3, 4⟩ (by
    intro h
    have hx := congrArg Vec2.x h
    norm_num at hx)

end Bounding2d
